import Mathlib

/-!
Verification of the CLI file I/O helpers (`src/cli_common/file_io.rs`):
the `StdoutWriter` terminal-safe truncation state machine and the
`OutputWriter` sink selector.

The underlying terminal stream (`io::Stdout`) is modelled as a trace of
output events: each `inner.write` of a payload slice appends a
`OutEvent.payload` event, and each `inner.write_all(TRUNCATED_TTY_MSG)`
appends a `OutEvent.trailer` event.  `io::sink()` writes append nothing.
Bytes are modelled as `Nat` values (< 256 in practice).
-/

/-- The constant `SHORT_OUTPUT_LENGTH` from the source: `20 * 80`. -/
def SHORT_OUTPUT_LENGTH : Nat := 20 * 80

/-- The bytes of `TRUNCATED_TTY_MSG`:
`"\n[truncated; use a pipe, a redirect, or --output to see full message]\n"`
(all ASCII, 70 bytes). -/
def TRUNCATED_TTY_MSG : List Nat :=
  [10, 91, 116, 114, 117, 110, 99, 97, 116, 101, 100, 59, 32, 117, 115, 101,
   32, 97, 32, 112, 105, 112, 101, 44, 32, 97, 32, 114, 101, 100, 105, 114,
   101, 99, 116, 44, 32, 111, 114, 32, 45, 45, 111, 117, 116, 112, 117, 116,
   32, 116, 111, 32, 115, 101, 101, 32, 102, 117, 108, 108, 32, 109, 101,
   115, 115, 97, 103, 101, 93, 10]

/-- One event on the real terminal stream: a payload slice written by
`inner.write`, or the one-off trailer message written by
`inner.write_all(TRUNCATED_TTY_MSG)`. -/
inductive OutEvent where
  | payload : List Nat → OutEvent
  | trailer : OutEvent
deriving DecidableEq, Repr

/-- Errors surfaced by the modelled operations, mirroring the
`io::ErrorKind` / message pairs used in the source. -/
inductive IoErr where
  | invalidInput : String → IoErr
  | alreadyExists : IoErr
  | otherErr : String → IoErr
deriving DecidableEq, Repr

/-- One step of the UTF-8 acceptor: state `0` is "at a character
boundary"; states `1`..`3` expect that many generic continuation bytes
(`0x80..0xBF`); states `4`..`7` encode the tightened second-byte ranges
after lead bytes `0xE0`, `0xED`, `0xF0`, `0xF4` (no overlongs, no
surrogates, nothing above U+10FFFF).  `none` means the byte is rejected. -/
def utf8Next (s b : Nat) : Option Nat :=
  if s = 0 then
    if b ≤ 0x7F then some 0
    else if 0xC2 ≤ b ∧ b ≤ 0xDF then some 1
    else if b = 0xE0 then some 4
    else if (0xE1 ≤ b ∧ b ≤ 0xEC) ∨ (0xEE ≤ b ∧ b ≤ 0xEF) then some 2
    else if b = 0xED then some 5
    else if b = 0xF0 then some 6
    else if 0xF1 ≤ b ∧ b ≤ 0xF3 then some 3
    else if b = 0xF4 then some 7
    else none
  else if s = 1 then (if 0x80 ≤ b ∧ b ≤ 0xBF then some 0 else none)
  else if s = 2 then (if 0x80 ≤ b ∧ b ≤ 0xBF then some 1 else none)
  else if s = 3 then (if 0x80 ≤ b ∧ b ≤ 0xBF then some 2 else none)
  else if s = 4 then (if 0xA0 ≤ b ∧ b ≤ 0xBF then some 1 else none)
  else if s = 5 then (if 0x80 ≤ b ∧ b ≤ 0x9F then some 1 else none)
  else if s = 6 then (if 0x90 ≤ b ∧ b ≤ 0xBF then some 2 else none)
  else if s = 7 then (if 0x80 ≤ b ∧ b ≤ 0x8F then some 2 else none)
  else none

/-- Runs the UTF-8 acceptor from state `s`; accepts when the input ends at
a character boundary. -/
def validUtf8From (s : Nat) : List Nat → Bool
  | [] => s == 0
  | b :: rest =>
    match utf8Next s b with
    | some s2 => validUtf8From s2 rest
    | none => false

/-- UTF-8 well-formedness of a byte list, mirroring
`std::str::from_utf8(data).is_err()` (the standard UTF-8 table: rejects
lone continuation bytes, overlong encodings, surrogates and values above
U+10FFFF). -/
def validUtf8 (l : List Nat) : Bool := validUtf8From 0 l

/-- The `StdoutWriter` struct (the wrapped `inner : io::Stdout` stream is
modelled externally as the event trace returned by `write`). -/
structure StdoutWriter where
  count : Nat
  is_tty : Bool
  truncated : Bool
deriving DecidableEq, Repr

/-- The constructor `StdoutWriter::new`. -/
def StdoutWriter.new (is_tty : Bool) : StdoutWriter :=
  { count := 0, is_tty := is_tty, truncated := false }

/-- The method `<StdoutWriter as Write>::write`.  Returns the updated writer state,
the events appended to the real terminal stream, and the `io::Result<usize>`
return value.  `io::sink().write(x)` consumes `x` and reports `x.length`
without producing a terminal event. -/
def StdoutWriter.write (w : StdoutWriter) (data : List Nat) :
    StdoutWriter × List OutEvent × Except IoErr Nat :=
  if w.is_tty = true then
    if validUtf8 data = false then
      (w, [], Except.error (IoErr.invalidInput "not printing unprintable message to stdout"))
    else if w.truncated = true ∨ w.count = SHORT_OUTPUT_LENGTH then
      (if w.truncated = true then w else { w with truncated := true },
       if w.truncated = true then [] else [OutEvent.trailer],
       Except.ok data.length)
    else
      if w.count + min (SHORT_OUTPUT_LENGTH - w.count) data.length = SHORT_OUTPUT_LENGTH ∧
          min (SHORT_OUTPUT_LENGTH - w.count) data.length < data.length then
        (if w.truncated = true then
           { w with count := w.count + min (SHORT_OUTPUT_LENGTH - w.count) data.length }
         else
           { w with count := w.count + min (SHORT_OUTPUT_LENGTH - w.count) data.length,
                    truncated := true },
         OutEvent.payload (data.take (min (SHORT_OUTPUT_LENGTH - w.count) data.length)) ::
           (if w.truncated = true then [] else [OutEvent.trailer]),
         Except.ok (min (SHORT_OUTPUT_LENGTH - w.count) data.length +
           (data.length - min (SHORT_OUTPUT_LENGTH - w.count) data.length)))
      else
        ({ w with count := w.count + min (SHORT_OUTPUT_LENGTH - w.count) data.length },
         [OutEvent.payload (data.take (min (SHORT_OUTPUT_LENGTH - w.count) data.length))],
         Except.ok (min (SHORT_OUTPUT_LENGTH - w.count) data.length))
  else
    (w, [OutEvent.payload data], Except.ok data.length)

/-- Runs a sequence of `write` calls, collecting the terminal-stream events
in order (return values are discarded, as a caller ignoring them would). -/
def runWrites (w : StdoutWriter) : List (List Nat) → StdoutWriter × List OutEvent
  | [] => (w, [])
  | d :: ds =>
    ((runWrites (w.write d).1 ds).1, (w.write d).2.1 ++ (runWrites (w.write d).1 ds).2)

/-- Total number of payload bytes delivered to the real terminal stream. -/
def payloadBytes : List OutEvent → Nat
  | [] => 0
  | OutEvent.payload bs :: rest => bs.length + payloadBytes rest
  | OutEvent.trailer :: rest => payloadBytes rest

/-- Number of trailer-message emissions in the terminal stream. -/
def trailerCount : List OutEvent → Nat
  | [] => 0
  | OutEvent.payload _ :: rest => trailerCount rest
  | OutEvent.trailer :: rest => 1 + trailerCount rest

/-- The terminal-visible byte stream: payload slices verbatim, the trailer
event as the bytes of `TRUNCATED_TTY_MSG`. -/
def flattenOut : List OutEvent → List Nat
  | [] => []
  | OutEvent.payload bs :: rest => bs ++ flattenOut rest
  | OutEvent.trailer :: rest => TRUNCATED_TTY_MSG ++ flattenOut rest

/-- Only the payload bytes of the terminal stream, in order (the trailer
message elided). -/
def payloadFlatten : List OutEvent → List Nat
  | [] => []
  | OutEvent.payload bs :: rest => bs ++ payloadFlatten rest
  | OutEvent.trailer :: rest => payloadFlatten rest

/-- Holds when nothing at all follows a trailer event in the stream (in
particular no payload bytes appear after the trailer). -/
def nothingAfterTrailer : List OutEvent → Bool
  | [] => true
  | OutEvent.trailer :: rest => rest.isEmpty
  | OutEvent.payload _ :: rest => nothingAfterTrailer rest

/-! ### Sink selector (`OutputWriter::new`) -/

/-- Modelled from the spec: the file-system visible to the sink selector,
as the list of existing files (name and content).  The repository code
delegates opening to `OpenOptions::new().write(true).create_new(true)`,
whose contract the spec states as "open with exclusive creation (fails if
path exists); no truncate-on-open, no implicit overwrite". -/
structure FileSys where
  files : List (String × List Nat)
deriving DecidableEq, Repr

/-- Modelled from the spec: exclusive creation
(`OpenOptions::write(true).create_new(true).open`).  Fails with
`AlreadyExists` when the path already exists, leaving every file
untouched; otherwise creates the named file empty. -/
def openCreateNew (fs : FileSys) (filename : String) : Except IoErr FileSys :=
  if fs.files.any (fun p => p.1 == filename) then Except.error IoErr.alreadyExists
  else Except.ok { files := (filename, []) :: fs.files }

/-- The `OutputWriter` enum (a file handle is identified by its name). -/
inductive OutputWriter where
  | file : String → OutputWriter
  | stdout : StdoutWriter → OutputWriter
deriving DecidableEq, Repr

/-- The constructor `OutputWriter::new`.  `is_tty` models `console::user_attended()`,
queried once at construction.  Returns the selected writer (or the
error), together with the resulting file system. -/
def OutputWriter.new (fs : FileSys) (is_tty : Bool) (output : Option String)
    (deny_tty : Bool) : Except IoErr OutputWriter × FileSys :=
  match output with
  | some filename =>
    match openCreateNew fs filename with
    | Except.error e => (Except.error e, fs)
    | Except.ok fs2 => (Except.ok (OutputWriter.file filename), fs2)
  | none =>
    if is_tty && deny_tty then
      (Except.error (IoErr.otherErr "not printing to stdout"), fs)
    else
      (Except.ok (OutputWriter.stdout (StdoutWriter.new is_tty)), fs)

/-! ### Characterization of single `write` calls -/

lemma write_non_tty (w : StdoutWriter) (d : List Nat) (h : w.is_tty = false) :
    w.write d = (w, [OutEvent.payload d], Except.ok d.length) := by
  simp [StdoutWriter.write, h]

lemma write_invalid (w : StdoutWriter) (d : List Nat) (htty : w.is_tty = true)
    (hbad : validUtf8 d = false) :
    w.write d =
      (w, [], Except.error (IoErr.invalidInput "not printing unprintable message to stdout")) := by
  simp [StdoutWriter.write, htty, hbad]

lemma write_already_trunc (w : StdoutWriter) (d : List Nat) (htty : w.is_tty = true)
    (hv : validUtf8 d = true) (ht : w.truncated = true) :
    w.write d = (w, [], Except.ok d.length) := by
  simp [StdoutWriter.write, htty, hv, ht]

lemma write_at_limit (w : StdoutWriter) (d : List Nat) (htty : w.is_tty = true)
    (hv : validUtf8 d = true) (ht : w.truncated = false)
    (hc : w.count = SHORT_OUTPUT_LENGTH) :
    w.write d = ({ w with truncated := true }, [OutEvent.trailer], Except.ok d.length) := by
  simp [StdoutWriter.write, htty, hv, ht, hc]

lemma write_fit (w : StdoutWriter) (d : List Nat) (htty : w.is_tty = true)
    (hv : validUtf8 d = true) (ht : w.truncated = false)
    (hlt : w.count < SHORT_OUTPUT_LENGTH) (hfit : w.count + d.length ≤ SHORT_OUTPUT_LENGTH) :
    w.write d =
      ({ w with count := w.count + d.length }, [OutEvent.payload d], Except.ok d.length) := by
  have hne : ¬ w.count = SHORT_OUTPUT_LENGTH := by omega
  have hmin : min (SHORT_OUTPUT_LENGTH - w.count) d.length = d.length := by omega
  simp [StdoutWriter.write, htty, hv, ht, hne, hmin]

lemma write_cross (w : StdoutWriter) (d : List Nat) (htty : w.is_tty = true)
    (hv : validUtf8 d = true) (ht : w.truncated = false)
    (hlt : w.count < SHORT_OUTPUT_LENGTH) (hcross : SHORT_OUTPUT_LENGTH < w.count + d.length) :
    w.write d =
      ({ w with count := SHORT_OUTPUT_LENGTH, truncated := true },
       [OutEvent.payload (d.take (SHORT_OUTPUT_LENGTH - w.count)), OutEvent.trailer],
       Except.ok d.length) := by
  have hne : ¬ w.count = SHORT_OUTPUT_LENGTH := by omega
  have hmin : min (SHORT_OUTPUT_LENGTH - w.count) d.length = SHORT_OUTPUT_LENGTH - w.count := by
    omega
  have hsum : w.count + (SHORT_OUTPUT_LENGTH - w.count) = SHORT_OUTPUT_LENGTH := by omega
  have hret : SHORT_OUTPUT_LENGTH - w.count +
      (d.length - (SHORT_OUTPUT_LENGTH - w.count)) = d.length := by omega
  have hlen : SHORT_OUTPUT_LENGTH - w.count < d.length := by omega
  simp [StdoutWriter.write, htty, hv, ht, hne, hmin, hsum, hret, hlen]

/-! ### Traces of `write` calls -/

lemma runWrites_nil (w : StdoutWriter) : runWrites w [] = (w, []) := rfl

lemma runWrites_cons (w : StdoutWriter) (d : List Nat) (ds : List (List Nat)) :
    runWrites w (d :: ds) =
      ((runWrites (w.write d).1 ds).1, (w.write d).2.1 ++ (runWrites (w.write d).1 ds).2) := rfl

lemma runWrites_append (w : StdoutWriter) (ds1 ds2 : List (List Nat)) :
    runWrites w (ds1 ++ ds2) =
      ((runWrites (runWrites w ds1).1 ds2).1,
       (runWrites w ds1).2 ++ (runWrites (runWrites w ds1).1 ds2).2) := by
  induction ds1 generalizing w with
  | nil => simp [runWrites_nil]
  | cons d ds ih => simp [runWrites_cons, ih, List.append_assoc]

lemma write_preserves_tty (w : StdoutWriter) (d : List Nat) :
    (w.write d).1.is_tty = w.is_tty := by
  unfold StdoutWriter.write
  split <;> [skip; rfl]
  split
  · rfl
  split
  · split <;> rfl
  split
  · split <;> rfl
  · rfl

/-- A `truncated` tty writer is absorbing: no event is ever appended and the
state never changes again. -/
lemma runWrites_absorb (ds : List (List Nat)) (w : StdoutWriter)
    (htty : w.is_tty = true) (ht : w.truncated = true) :
    runWrites w ds = (w, []) := by
  induction ds with
  | nil => exact runWrites_nil w
  | cons d ds ih =>
    rw [runWrites_cons]
    cases hvd : validUtf8 d with
    | false => rw [write_invalid w d htty hvd]; simp [ih]
    | true => rw [write_already_trunc w d htty hvd ht]; simp [ih]


lemma write_at_limit_fst (w : StdoutWriter) (d : List Nat) (htty : w.is_tty = true)
    (hv : validUtf8 d = true) (ht : w.truncated = false)
    (hc : w.count = SHORT_OUTPUT_LENGTH) :
    (w.write d).1 = { w with truncated := true } := by
  rw [write_at_limit w d htty hv ht hc]

lemma write_at_limit_out (w : StdoutWriter) (d : List Nat) (htty : w.is_tty = true)
    (hv : validUtf8 d = true) (ht : w.truncated = false)
    (hc : w.count = SHORT_OUTPUT_LENGTH) :
    (w.write d).2.1 = [OutEvent.trailer] := by
  rw [write_at_limit w d htty hv ht hc]

lemma write_fit_fst (w : StdoutWriter) (d : List Nat) (htty : w.is_tty = true)
    (hv : validUtf8 d = true) (ht : w.truncated = false)
    (hlt : w.count < SHORT_OUTPUT_LENGTH) (hfit : w.count + d.length ≤ SHORT_OUTPUT_LENGTH) :
    (w.write d).1 = { w with count := w.count + d.length } := by
  rw [write_fit w d htty hv ht hlt hfit]

lemma write_fit_out (w : StdoutWriter) (d : List Nat) (htty : w.is_tty = true)
    (hv : validUtf8 d = true) (ht : w.truncated = false)
    (hlt : w.count < SHORT_OUTPUT_LENGTH) (hfit : w.count + d.length ≤ SHORT_OUTPUT_LENGTH) :
    (w.write d).2.1 = [OutEvent.payload d] := by
  rw [write_fit w d htty hv ht hlt hfit]

lemma write_cross_fst (w : StdoutWriter) (d : List Nat) (htty : w.is_tty = true)
    (hv : validUtf8 d = true) (ht : w.truncated = false)
    (hlt : w.count < SHORT_OUTPUT_LENGTH) (hcross : SHORT_OUTPUT_LENGTH < w.count + d.length) :
    (w.write d).1 = { w with count := SHORT_OUTPUT_LENGTH, truncated := true } := by
  rw [write_cross w d htty hv ht hlt hcross]

lemma write_cross_out (w : StdoutWriter) (d : List Nat) (htty : w.is_tty = true)
    (hv : validUtf8 d = true) (ht : w.truncated = false)
    (hlt : w.count < SHORT_OUTPUT_LENGTH) (hcross : SHORT_OUTPUT_LENGTH < w.count + d.length) :
    (w.write d).2.1 =
      [OutEvent.payload (d.take (SHORT_OUTPUT_LENGTH - w.count)), OutEvent.trailer] := by
  rw [write_cross w d htty hv ht hlt hcross]

/-- Master invariant of tty write traces: the writer keeps `is_tty`, the
count stays within the cap and only grows, payload events account exactly
for the count's growth, the trailer is emitted exactly when `truncated`
flips, `truncated` is monotone, and nothing follows a trailer event. -/
lemma runWrites_master (ds : List (List Nat)) : ∀ (w : StdoutWriter),
    w.is_tty = true → w.count ≤ SHORT_OUTPUT_LENGTH →
    (w.truncated = true → w.count = SHORT_OUTPUT_LENGTH) →
    (runWrites w ds).1.is_tty = true ∧
    (runWrites w ds).1.count ≤ SHORT_OUTPUT_LENGTH ∧
    ((runWrites w ds).1.truncated = true →
      (runWrites w ds).1.count = SHORT_OUTPUT_LENGTH) ∧
    w.count ≤ (runWrites w ds).1.count ∧
    payloadBytes (runWrites w ds).2 + w.count = (runWrites w ds).1.count ∧
    trailerCount (runWrites w ds).2 + (if w.truncated = true then 1 else 0) =
      (if (runWrites w ds).1.truncated = true then 1 else 0) ∧
    (w.truncated = true → (runWrites w ds).1.truncated = true) ∧
    nothingAfterTrailer (runWrites w ds).2 = true := by
  induction ds with
  | nil =>
    intro w htty hc hti
    rw [runWrites_nil]
    exact ⟨htty, hc, hti, le_refl _, by simp [payloadBytes], by simp [trailerCount],
      fun h => h, rfl⟩
  | cons d ds ih =>
    intro w htty hc hti
    by_cases hvd : validUtf8 d = true
    · by_cases htr : w.truncated = true
      · rw [runWrites_cons, write_already_trunc w d htty hvd htr]
        simpa [payloadBytes] using ih w htty hc hti
      · have htr' : w.truncated = false := by simpa using htr
        by_cases hlim : w.count = SHORT_OUTPUT_LENGTH
        · rw [runWrites_cons, write_at_limit_fst w d htty hvd htr' hlim,
            write_at_limit_out w d htty hvd htr' hlim]
          have habs := runWrites_absorb ds { w with truncated := true }
            (by simpa using htty) (by rfl)
          rw [habs]
          simp [payloadBytes, trailerCount, nothingAfterTrailer, htr', hlim, hc, htty]
        · have hlt : w.count < SHORT_OUTPUT_LENGTH := by omega
          by_cases hfit : w.count + d.length ≤ SHORT_OUTPUT_LENGTH
          · rw [runWrites_cons, write_fit_fst w d htty hvd htr' hlt hfit,
              write_fit_out w d htty hvd htr' hlt hfit]
            obtain ⟨a1, a2, a3, a4, a5, a6, a7, a8⟩ := ih { w with count := w.count + d.length }
              (by simpa using htty) (by simpa using hfit) (by simp [htr'])
            refine ⟨a1, a2, a3, ?_, ?_, ?_, ?_, ?_⟩
            · exact le_trans (Nat.le_add_right w.count d.length) a4
            · have a5' : payloadBytes (runWrites { w with count := w.count + d.length } ds).2 +
                  (w.count + d.length) =
                  (runWrites { w with count := w.count + d.length } ds).1.count := a5
              show payloadBytes ([OutEvent.payload d] ++
                  (runWrites { w with count := w.count + d.length } ds).2) + w.count =
                  (runWrites { w with count := w.count + d.length } ds).1.count
              have hgoal : payloadBytes ([OutEvent.payload d] ++
                    (runWrites { w with count := w.count + d.length } ds).2) =
                  d.length +
                    payloadBytes (runWrites { w with count := w.count + d.length } ds).2 := rfl
              rw [hgoal]
              omega
            · simpa [trailerCount, htr', List.singleton_append] using a6
            · simp [htr']
            · simpa [nothingAfterTrailer, List.singleton_append] using a8
          · have hcross : SHORT_OUTPUT_LENGTH < w.count + d.length := by omega
            rw [runWrites_cons, write_cross_fst w d htty hvd htr' hlt hcross,
              write_cross_out w d htty hvd htr' hlt hcross]
            have habs := runWrites_absorb ds
              { w with count := SHORT_OUTPUT_LENGTH, truncated := true }
              (by simpa using htty) (by rfl)
            rw [habs]
            have htk : (d.take (SHORT_OUTPUT_LENGTH - w.count)).length =
                SHORT_OUTPUT_LENGTH - w.count := by
              rw [List.length_take]; omega
            simp [payloadBytes, trailerCount, nothingAfterTrailer, htr', htk, htty]
            omega
    · have hvd' : validUtf8 d = false := by simpa using hvd
      rw [runWrites_cons, write_invalid w d htty hvd']
      simpa [payloadBytes] using ih w htty hc hti


/-! ### Terminal-visible byte streams (chunking-invariance) -/

/-- From a fresh-limit state (`count = LIMIT`, not yet truncated), a
nonempty run of valid writes shows exactly the trailer, an empty run
nothing. -/
lemma runWrites_at_limit_flatten (ds : List (List Nat)) (w : StdoutWriter)
    (htty : w.is_tty = true) (ht : w.truncated = false)
    (hlim : w.count = SHORT_OUTPUT_LENGTH)
    (hv : ∀ d ∈ ds, validUtf8 d = true) :
    flattenOut (runWrites w ds).2 = if ds = [] then [] else TRUNCATED_TTY_MSG := by
  cases ds with
  | nil => simp [runWrites_nil, flattenOut]
  | cons d rest =>
    have hvd : validUtf8 d = true := hv d (by simp)
    rw [runWrites_cons, write_at_limit_fst w d htty hvd ht hlim,
      write_at_limit_out w d htty hvd ht hlim,
      runWrites_absorb rest { w with truncated := true } (by simpa using htty) (by rfl)]
    simp [flattenOut]

/-- Closed form of the terminal-visible bytes of a run of nonempty valid
writes from a non-full state: the first `LIMIT - count` bytes of the
concatenated content, followed by the trailer exactly when that content
overflows the remaining budget. -/
lemma runWrites_flatten (ds : List (List Nat)) : ∀ (w : StdoutWriter),
    w.is_tty = true → w.truncated = false → w.count < SHORT_OUTPUT_LENGTH →
    (∀ d ∈ ds, validUtf8 d = true) → (∀ d ∈ ds, d ≠ []) →
    flattenOut (runWrites w ds).2 =
      (ds.flatten).take (SHORT_OUTPUT_LENGTH - w.count) ++
        (if SHORT_OUTPUT_LENGTH - w.count < (ds.flatten).length
         then TRUNCATED_TTY_MSG else []) := by
  induction ds with
  | nil =>
    intro w htty ht hlt hv hne
    simp [runWrites_nil, flattenOut]
  | cons d rest ih =>
    intro w htty ht hlt hv hne
    have hvd : validUtf8 d = true := hv d (by simp)
    have hflat : (d :: rest).flatten = d ++ rest.flatten := List.flatten_cons ..
    rcases lt_trichotomy d.length (SHORT_OUTPUT_LENGTH - w.count) with hm | hm | hm
    · -- the chunk fits strictly inside the remaining budget
      have hfit : w.count + d.length ≤ SHORT_OUTPUT_LENGTH := by omega
      rw [runWrites_cons, write_fit_fst w d htty hvd ht hlt hfit,
        write_fit_out w d htty hvd ht hlt hfit]
      have ih2 := ih { w with count := w.count + d.length } (by simpa using htty)
        (by simpa using ht) (by show w.count + d.length < SHORT_OUTPUT_LENGTH; omega)
        (fun x hx => hv x (by simp [hx])) (fun x hx => hne x (by simp [hx]))
      have hsub : ({ w with count := w.count + d.length } : StdoutWriter).count
          = w.count + d.length := rfl
      rw [hsub] at ih2
      have hcons : flattenOut ([OutEvent.payload d] ++
            (runWrites { w with count := w.count + d.length } rest).2) =
          d ++ flattenOut (runWrites { w with count := w.count + d.length } rest).2 := rfl
      rw [hcons, ih2, hflat, List.take_append_eq_append_take,
        List.take_of_length_le (le_of_lt hm), List.length_append]
      have h2 : SHORT_OUTPUT_LENGTH - w.count - d.length =
          SHORT_OUTPUT_LENGTH - (w.count + d.length) := by omega
      rw [h2, List.append_assoc]
      by_cases hov : SHORT_OUTPUT_LENGTH - (w.count + d.length) < rest.flatten.length
      · rw [if_pos hov, if_pos (show SHORT_OUTPUT_LENGTH - w.count <
          d.length + rest.flatten.length by omega)]
      · rw [if_neg hov, if_neg (show ¬ SHORT_OUTPUT_LENGTH - w.count <
          d.length + rest.flatten.length by omega)]
    · -- the chunk lands exactly on the limit: no trailer from this write
      have hfit : w.count + d.length ≤ SHORT_OUTPUT_LENGTH := by omega
      rw [runWrites_cons, write_fit_fst w d htty hvd ht hlt hfit,
        write_fit_out w d htty hvd ht hlt hfit]
      have hlim2 : ({ w with count := w.count + d.length } : StdoutWriter).count
          = SHORT_OUTPUT_LENGTH := by
        show w.count + d.length = SHORT_OUTPUT_LENGTH; omega
      have hrest := runWrites_at_limit_flatten rest { w with count := w.count + d.length }
        (by simpa using htty) (by simpa using ht) hlim2 (fun x hx => hv x (by simp [hx]))
      have hcons : flattenOut ([OutEvent.payload d] ++
            (runWrites { w with count := w.count + d.length } rest).2) =
          d ++ flattenOut (runWrites { w with count := w.count + d.length } rest).2 := rfl
      rw [hcons, hrest, hflat, List.take_append_eq_append_take,
        List.take_of_length_le (le_of_eq hm), List.length_append]
      have h2 : SHORT_OUTPUT_LENGTH - w.count - d.length = 0 := by omega
      rw [h2, List.take_zero]
      rcases eq_or_ne rest [] with hrnil | hrnil
      · subst hrnil
        rw [if_pos rfl, if_neg (by simp [List.flatten_nil]; omega)]
        simp
      · have hfne : rest.flatten ≠ [] := by
          rw [Ne, List.flatten_eq_nil_iff]
          intro hall
          rcases rest with _ | ⟨x, xs⟩
          · exact hrnil rfl
          · exact hne x (by simp) (hall x (by simp))
        have hpos : 0 < rest.flatten.length := List.length_pos.mpr hfne
        rw [if_neg hrnil, if_pos (by omega)]
        simp
    · -- the chunk overflows the budget: trailer emitted here, rest absorbed
      have hcross : SHORT_OUTPUT_LENGTH < w.count + d.length := by omega
      rw [runWrites_cons, write_cross_fst w d htty hvd ht hlt hcross,
        write_cross_out w d htty hvd ht hlt hcross,
        runWrites_absorb rest { w with count := SHORT_OUTPUT_LENGTH, truncated := true }
          (by simpa using htty) (by rfl)]
      have hcons : flattenOut
            ([OutEvent.payload (d.take (SHORT_OUTPUT_LENGTH - w.count)), OutEvent.trailer]
              ++ []) =
          d.take (SHORT_OUTPUT_LENGTH - w.count) ++ TRUNCATED_TTY_MSG := by
        simp [flattenOut]
      rw [hcons, hflat, List.take_append_eq_append_take]
      have h2 : SHORT_OUTPUT_LENGTH - w.count - d.length = 0 := by omega
      rw [h2, List.take_zero, if_pos (by rw [List.length_append]; omega)]
      simp

/-- Terminal-visible bytes of one valid write from a non-full state. -/
lemma write_flatten_single (w : StdoutWriter) (s : List Nat) (htty : w.is_tty = true)
    (ht : w.truncated = false) (hlt : w.count < SHORT_OUTPUT_LENGTH)
    (hv : validUtf8 s = true) :
    flattenOut (w.write s).2.1 =
      s.take (SHORT_OUTPUT_LENGTH - w.count) ++
        (if SHORT_OUTPUT_LENGTH - w.count < s.length then TRUNCATED_TTY_MSG else []) := by
  by_cases hfit : w.count + s.length ≤ SHORT_OUTPUT_LENGTH
  · rw [write_fit_out w s htty hv ht hlt hfit,
      List.take_of_length_le (show s.length ≤ SHORT_OUTPUT_LENGTH - w.count by omega),
      if_neg (by omega)]
    simp [flattenOut]
  · have hcross : SHORT_OUTPUT_LENGTH < w.count + s.length := by omega
    rw [write_cross_out w s htty hv ht hlt hcross, if_pos (by omega)]
    simp [flattenOut]

/-! ### UTF-8 validity is closed under concatenation -/

lemma validUtf8From_append (a : List Nat) : ∀ (s : Nat) (b : List Nat),
    validUtf8From s a = true → validUtf8From 0 b = true →
    validUtf8From s (a ++ b) = true := by
  induction a with
  | nil =>
    intro s b ha hb
    have hs : s = 0 := by simpa [validUtf8From] using ha
    subst hs
    simpa using hb
  | cons x rest ih =>
    intro s b ha hb
    simp only [validUtf8From, List.cons_append] at ha ⊢
    cases hnx : utf8Next s x with
    | none =>
      rw [hnx] at ha
      exact absurd ha (by simp)
    | some s2 =>
      rw [hnx] at ha
      simp only [hnx]
      exact ih s2 b ha hb

lemma validUtf8_append (a b : List Nat) (ha : validUtf8 a = true)
    (hb : validUtf8 b = true) : validUtf8 (a ++ b) = true :=
  validUtf8From_append a 0 b ha hb

lemma validUtf8_flatten (ds : List (List Nat)) (h : ∀ d ∈ ds, validUtf8 d = true) :
    validUtf8 ds.flatten = true := by
  induction ds with
  | nil => rfl
  | cons d rest ih =>
    rw [List.flatten_cons]
    exact validUtf8_append d rest.flatten (h d (by simp))
      (ih fun x hx => h x (by simp [hx]))

/-! ### Per-write corollaries -/

/-- The counter never decreases, and a strict increase only happens in a
write that starts with `truncated = false`. -/
lemma write_count_mono (w : StdoutWriter) (d : List Nat) :
    w.count ≤ (w.write d).1.count ∧
    (w.count < (w.write d).1.count → w.truncated = false) := by
  by_cases htty : w.is_tty = true
  · by_cases hvd : validUtf8 d = true
    · by_cases htr : w.truncated = true
      · rw [write_already_trunc w d htty hvd htr]
        exact ⟨le_refl _, fun h => absurd h (lt_irrefl _)⟩
      · have htr' : w.truncated = false := by simpa using htr
        by_cases hlim : w.count = SHORT_OUTPUT_LENGTH
        · rw [write_at_limit_fst w d htty hvd htr' hlim]
          exact ⟨le_refl _, fun _ => htr'⟩
        · have hfst : (w.write d).1.count =
              w.count + min (SHORT_OUTPUT_LENGTH - w.count) d.length := by
            unfold StdoutWriter.write
            rw [if_pos htty, if_neg (by simp [hvd]),
              if_neg (by simp [htr', hlim] : ¬ (w.truncated = true ∨
                w.count = SHORT_OUTPUT_LENGTH))]
            split <;> simp [htr']
          rw [hfst]
          exact ⟨Nat.le_add_right _ _, fun _ => htr'⟩
    · have hvd' : validUtf8 d = false := by simpa using hvd
      rw [write_invalid w d htty hvd']
      exact ⟨le_refl _, fun h => absurd h (lt_irrefl _)⟩
  · have htty' : w.is_tty = false := by simpa using htty
    rw [write_non_tty w d htty']
    exact ⟨le_refl _, fun h => absurd h (lt_irrefl _)⟩

/-- A single valid write on a within-cap interactive writer emits the
trailer exactly when the writer is not yet truncated and either starts at
the limit or overflows it. -/
lemma write_trailer_iff (w : StdoutWriter) (d : List Nat) (htty : w.is_tty = true)
    (hc : w.count ≤ SHORT_OUTPUT_LENGTH) (hv : validUtf8 d = true) :
    trailerCount (w.write d).2.1 = 1 ↔
      w.truncated = false ∧
        (w.count = SHORT_OUTPUT_LENGTH ∨ SHORT_OUTPUT_LENGTH < w.count + d.length) := by
  by_cases htr : w.truncated = true
  · rw [write_already_trunc w d htty hv htr]
    simp [trailerCount, htr]
  · have htr' : w.truncated = false := by simpa using htr
    by_cases hlim : w.count = SHORT_OUTPUT_LENGTH
    · rw [write_at_limit_out w d htty hv htr' hlim]
      simp [trailerCount, htr', hlim]
    · have hlt : w.count < SHORT_OUTPUT_LENGTH := by omega
      by_cases hfit : w.count + d.length ≤ SHORT_OUTPUT_LENGTH
      · rw [write_fit_out w d htty hv htr' hlt hfit]
        simp [trailerCount, htr']
        omega
      · have hcross : SHORT_OUTPUT_LENGTH < w.count + d.length := by omega
        rw [write_cross_out w d htty hv htr' hlt hcross]
        simp [trailerCount, htr']
        omega

/-- Every successful write reports the full chunk length, whatever was
actually delivered or discarded (for reachable states, `count ≤ LIMIT`). -/
lemma write_ret_full (w : StdoutWriter) (d : List Nat) (n : Nat)
    (hc : w.count ≤ SHORT_OUTPUT_LENGTH)
    (h : (w.write d).2.2 = Except.ok n) : n = d.length := by
  by_cases htty : w.is_tty = true
  · by_cases hvd : validUtf8 d = true
    · by_cases htr : w.truncated = true
      · rw [write_already_trunc w d htty hvd htr] at h
        simpa using h.symm
      · have htr' : w.truncated = false := by simpa using htr
        by_cases hlim : w.count = SHORT_OUTPUT_LENGTH
        · rw [write_at_limit w d htty hvd htr' hlim] at h
          simpa using h.symm
        · have hlt : w.count < SHORT_OUTPUT_LENGTH := by omega
          by_cases hfit : w.count + d.length ≤ SHORT_OUTPUT_LENGTH
          · rw [write_fit w d htty hvd htr' hlt hfit] at h
            simpa using h.symm
          · have hcross : SHORT_OUTPUT_LENGTH < w.count + d.length := by omega
            rw [write_cross w d htty hvd htr' hlt hcross] at h
            simpa using h.symm
    · have hvd' : validUtf8 d = false := by simpa using hvd
      rw [write_invalid w d htty hvd'] at h
      simp at h
  · have htty' : w.is_tty = false := by simpa using htty
    rw [write_non_tty w d htty'] at h
    simpa using h.symm

/-- Non-interactive writers pass every chunk through unchanged and keep no
state. -/
lemma runWrites_non_tty (w : StdoutWriter) (ds : List (List Nat))
    (h : w.is_tty = false) :
    runWrites w ds = (w, ds.map OutEvent.payload) := by
  induction ds with
  | nil => simp [runWrites_nil]
  | cons d rest ih => simp [runWrites_cons, write_non_tty w d h, ih]

lemma flattenOut_map_payload (ds : List (List Nat)) :
    flattenOut (ds.map OutEvent.payload) = ds.flatten := by
  induction ds with
  | nil => rfl
  | cons d rest ih => simp [flattenOut, ih]

lemma trailerCount_map_payload (ds : List (List Nat)) :
    trailerCount (ds.map OutEvent.payload) = 0 := by
  induction ds with
  | nil => rfl
  | cons d rest ih => simpa [trailerCount] using ih

/-! ### ASCII runs (for concrete scenarios around the 1600-byte limit) -/

lemma utf8Next_ascii (b : Nat) (h1 : b ≤ 0x7F) : utf8Next 0 b = some 0 := by
  simp [utf8Next, h1]

lemma validUtf8From_ascii_append (n : Nat) (b : Nat) (hb : b ≤ 0x7F) (l : List Nat) :
    validUtf8From 0 (List.replicate n b ++ l) = validUtf8From 0 l := by
  induction n with
  | zero => simp
  | succ k ih =>
    rw [List.replicate_succ, List.cons_append]
    simp only [validUtf8From, utf8Next_ascii b hb]
    exact ih

lemma validUtf8_replicate (n b : Nat) (hb : b ≤ 0x7F) :
    validUtf8 (List.replicate n b) = true := by
  have h := validUtf8From_ascii_append n b hb []
  simpa [validUtf8, validUtf8From] using h

/-! ## Claim theorems -/

/-- C1: for every sequence of write calls on a fresh interactive
`StdoutWriter`, the counter `count` never exceeds
`SHORT_OUTPUT_LENGTH = 1600`, the cumulative payload bytes delivered to
the real terminal stream never exceed 1600, and on any interactive writer
a write never decreases `count` and strictly increases it only when the
write starts with `truncated = false`. -/
theorem c1_cap_and_monotonicity (ds : List (List Nat)) :
    (runWrites (StdoutWriter.new true) ds).1.count ≤ SHORT_OUTPUT_LENGTH ∧
    payloadBytes (runWrites (StdoutWriter.new true) ds).2 ≤ SHORT_OUTPUT_LENGTH ∧
    (∀ (w : StdoutWriter) (d : List Nat), w.is_tty = true →
      w.count ≤ (w.write d).1.count ∧
      (w.count < (w.write d).1.count → w.truncated = false)) := by
  obtain ⟨a1, a2, a3, a4, a5, a6, a7, a8⟩ :=
    runWrites_master ds (StdoutWriter.new true) rfl (by decide) (by decide)
  refine ⟨a2, ?_, fun w d _ => write_count_mono w d⟩
  have a5' : payloadBytes (runWrites (StdoutWriter.new true) ds).2 + 0 =
      (runWrites (StdoutWriter.new true) ds).1.count := a5
  omega

/-- Witness for C1 at a concrete trace and a concrete single write. -/
theorem c1_cap_and_monotonicity_witness :
    (runWrites (StdoutWriter.new true) [[97], [98]]).1.count ≤ SHORT_OUTPUT_LENGTH ∧
    (StdoutWriter.new true).count ≤ ((StdoutWriter.new true).write [97]).1.count :=
  ⟨(c1_cap_and_monotonicity [[97], [98]]).1,
   ((c1_cap_and_monotonicity [[97], [98]]).2.2 (StdoutWriter.new true) [97] rfl).1⟩

/-- C2 counterexample: a single write of exactly 1600 ASCII bytes brings
`count` to the limit, yet no trailer is emitted and the writer does not
transition to `Truncated` — refuting "as soon as the count reaches LIMIT
the trailer is emitted exactly once and the state transitions". -/
theorem c2_counterexample :
    (runWrites (StdoutWriter.new true) [List.replicate 1600 97]).1.count =
        SHORT_OUTPUT_LENGTH ∧
    (runWrites (StdoutWriter.new true) [List.replicate 1600 97]).1.truncated = false ∧
    trailerCount (runWrites (StdoutWriter.new true) [List.replicate 1600 97]).2 = 0 := by
  have hv : validUtf8 (List.replicate 1600 97) = true :=
    validUtf8_replicate 1600 97 (by omega)
  have hfit : (StdoutWriter.new true).count +
      (List.replicate 1600 (97 : Nat)).length ≤ SHORT_OUTPUT_LENGTH := by
    rw [List.length_replicate]; decide
  have hlt : (StdoutWriter.new true).count < SHORT_OUTPUT_LENGTH := by decide
  rw [runWrites_cons,
    write_fit_fst (StdoutWriter.new true) (List.replicate 1600 97) rfl hv rfl hlt hfit,
    write_fit_out (StdoutWriter.new true) (List.replicate 1600 97) rfl hv rfl hlt hfit,
    runWrites_nil]
  refine ⟨?_, rfl, by simp [trailerCount]⟩
  show (StdoutWriter.new true).count + (List.replicate (1600 : Nat) (97 : Nat)).length =
    SHORT_OUTPUT_LENGTH
  rw [List.length_replicate]
  decide

/-- C2 (amended): on a fresh interactive writer fed valid UTF-8 chunks,
the trailer has been emitted exactly once by the time `truncated` is true
and never otherwise, nothing at all follows the trailer in the terminal
stream, `truncated` never reverts to `false`, and the trailer-emitting
write is exactly the first one that starts with `count = LIMIT` or
overflows the limit — not necessarily the write that first brings `count`
to `LIMIT`. -/
theorem c2_trailer_once_amended (ds : List (List Nat))
    (hv : ∀ d ∈ ds, validUtf8 d = true) :
    trailerCount (runWrites (StdoutWriter.new true) ds).2 =
      (if (runWrites (StdoutWriter.new true) ds).1.truncated = true then 1 else 0) ∧
    nothingAfterTrailer (runWrites (StdoutWriter.new true) ds).2 = true ∧
    (∀ ds2 : List (List Nat),
      (runWrites (StdoutWriter.new true) ds).1.truncated = true →
      (runWrites (StdoutWriter.new true) (ds ++ ds2)).1.truncated = true) ∧
    (∀ (w : StdoutWriter) (d : List Nat), w.is_tty = true →
      w.count ≤ SHORT_OUTPUT_LENGTH → validUtf8 d = true →
      (trailerCount (w.write d).2.1 = 1 ↔
        w.truncated = false ∧
          (w.count = SHORT_OUTPUT_LENGTH ∨ SHORT_OUTPUT_LENGTH < w.count + d.length))) := by
  obtain ⟨a1, a2, a3, a4, a5, a6, a7, a8⟩ :=
    runWrites_master ds (StdoutWriter.new true) rfl (by decide) (by decide)
  refine ⟨?_, a8, ?_, fun w d htty hc hvd => write_trailer_iff w d htty hc hvd⟩
  · have a6' : trailerCount (runWrites (StdoutWriter.new true) ds).2 + 0 =
        (if (runWrites (StdoutWriter.new true) ds).1.truncated = true then 1 else 0) := by
      simpa using a6
    omega
  · intro ds2 htrunc
    rw [runWrites_append,
      runWrites_absorb ds2 (runWrites (StdoutWriter.new true) ds).1 a1 htrunc]
    exact htrunc

/-- Witness for C2 (amended) at a concrete trace. -/
theorem c2_trailer_once_amended_witness :
    nothingAfterTrailer (runWrites (StdoutWriter.new true) [[104, 105]]).2 = true :=
  (c2_trailer_once_amended [[104, 105]] (by decide)).2.1

/-- C3 counterexample: splitting the valid 2-byte character `é`
(`[0xC3, 0xA9]`) into its two bytes changes the terminal-visible output —
each 1-byte chunk is rejected as invalid UTF-8, so nothing is delivered,
while the unsplit write delivers both bytes. -/
theorem c3_counterexample :
    flattenOut (runWrites (StdoutWriter.new true) [[195], [169]]).2 ≠
      flattenOut (runWrites (StdoutWriter.new true) [[195, 169]]).2 := by
  decide

/-- C3 (amended): chunking-invariance holds for partitions into nonempty
chunks that are each valid UTF-8: the terminal-visible byte stream of the
chunked writes equals that of a single write of the concatenation. -/
theorem c3_chunking_amended (ds : List (List Nat))
    (h : ∀ d ∈ ds, d ≠ [] ∧ validUtf8 d = true) :
    flattenOut (runWrites (StdoutWriter.new true) ds).2 =
      flattenOut ((StdoutWriter.new true).write ds.flatten).2.1 := by
  have hv : ∀ d ∈ ds, validUtf8 d = true := fun d hd => (h d hd).2
  have hne : ∀ d ∈ ds, d ≠ [] := fun d hd => (h d hd).1
  rw [runWrites_flatten ds (StdoutWriter.new true) rfl rfl (by decide) hv hne,
    write_flatten_single (StdoutWriter.new true) ds.flatten rfl rfl (by decide)
      (validUtf8_flatten ds hv)]

/-- Witness for C3 (amended) at a concrete two-chunk partition. -/
theorem c3_chunking_amended_witness :
    flattenOut (runWrites (StdoutWriter.new true) [[97], [98]]).2 =
      flattenOut ((StdoutWriter.new true).write
        (([[97], [98]] : List (List Nat)).flatten)).2.1 :=
  c3_chunking_amended [[97], [98]] (by decide)

/-- C4: every successful write on a within-cap writer reports the full
chunk length, whatever actually reached the terminal; in particular a
single write of 2000 ASCII bytes to a fresh interactive sink reports 2000
bytes written while only 1600 payload bytes plus one trailer reach the
terminal. -/
theorem c4_full_length_reported :
    (∀ (w : StdoutWriter) (d : List Nat) (n : Nat), w.count ≤ SHORT_OUTPUT_LENGTH →
      (w.write d).2.2 = Except.ok n → n = d.length) ∧
    ((StdoutWriter.new true).write (List.replicate 2000 97)).2.2 = Except.ok 2000 ∧
    payloadBytes ((StdoutWriter.new true).write (List.replicate 2000 97)).2.1 = 1600 ∧
    trailerCount ((StdoutWriter.new true).write (List.replicate 2000 97)).2.1 = 1 := by
  have hv : validUtf8 (List.replicate 2000 97) = true :=
    validUtf8_replicate 2000 97 (by omega)
  have hlt : (StdoutWriter.new true).count < SHORT_OUTPUT_LENGTH := by decide
  have hcross : SHORT_OUTPUT_LENGTH < (StdoutWriter.new true).count +
      (List.replicate 2000 (97 : Nat)).length := by
    rw [List.length_replicate]; decide
  have hw := write_cross (StdoutWriter.new true) (List.replicate 2000 97) rfl hv rfl hlt hcross
  refine ⟨fun w d n hc h => write_ret_full w d n hc h, ?_, ?_, ?_⟩
  · rw [hw]
    show Except.ok (List.replicate (2000 : Nat) (97 : Nat)).length = Except.ok 2000
    rw [List.length_replicate]
  · rw [hw]
    simp only [payloadBytes, List.length_take, List.length_replicate]
    decide
  · rw [hw]
    rfl

/-- Witness for C4's universally quantified part at a concrete write. -/
theorem c4_full_length_reported_witness :
    (1 : Nat) = ([97] : List Nat).length :=
  c4_full_length_reported.1 (StdoutWriter.new true) [97] 1 (by decide) (by rfl)

/-- C5: writing a chunk that is not well-formed UTF-8 to an interactive
writer always fails with the unprintable-content error and changes
nothing (no bytes delivered, state untouched); the same bytes always
succeed on a non-interactive writer. -/
theorem c5_unprintable (w w2 : StdoutWriter) (d : List Nat)
    (htty : w.is_tty = true) (hnt : w2.is_tty = false) (hbad : validUtf8 d = false) :
    w.write d = (w, [],
      Except.error (IoErr.invalidInput "not printing unprintable message to stdout")) ∧
    w2.write d = (w2, [OutEvent.payload d], Except.ok d.length) :=
  ⟨write_invalid w d htty hbad, write_non_tty w2 d hnt⟩

/-- Witness for C5 with the invalid byte `0xFF`. -/
theorem c5_unprintable_witness :
    (StdoutWriter.new true).write [255] = (StdoutWriter.new true, [],
      Except.error (IoErr.invalidInput "not printing unprintable message to stdout")) ∧
    (StdoutWriter.new false).write [255] =
      (StdoutWriter.new false, [OutEvent.payload [255]],
        Except.ok ([255] : List Nat).length) :=
  c5_unprintable (StdoutWriter.new true) (StdoutWriter.new false) [255] rfl rfl (by decide)

/-- C6: a non-interactive writer passes every sequence of chunks through
byte-identically (any length, any content), its state never changes, and
no trailer is ever emitted. -/
theorem c6_non_tty_passthrough (w : StdoutWriter) (ds : List (List Nat))
    (h : w.is_tty = false) :
    runWrites w ds = (w, ds.map OutEvent.payload) ∧
    flattenOut (ds.map OutEvent.payload) = ds.flatten ∧
    trailerCount (ds.map OutEvent.payload) = 0 :=
  ⟨runWrites_non_tty w ds h, flattenOut_map_payload ds, trailerCount_map_payload ds⟩

/-- Witness for C6 with non-UTF-8 content. -/
theorem c6_non_tty_passthrough_witness :
    runWrites (StdoutWriter.new false) [[255], [0, 1]] =
      (StdoutWriter.new false, [OutEvent.payload [255], OutEvent.payload [0, 1]]) :=
  (c6_non_tty_passthrough (StdoutWriter.new false) [[255], [0, 1]] rfl).1

/-- C7: with a present output path, `OutputWriter::new` opens with
exclusive creation: any existing path fails with `AlreadyExists`
regardless of the existing file's content, the file system is returned
untouched (no overwrite, no truncation), and in every case all existing
files survive unchanged. -/
theorem c7_exclusive_creation (fs : FileSys) (name : String) (tty deny : Bool) :
    ((∃ content, (name, content) ∈ fs.files) →
      OutputWriter.new fs tty (some name) deny = (Except.error IoErr.alreadyExists, fs)) ∧
    (∀ e ∈ fs.files, e ∈ (OutputWriter.new fs tty (some name) deny).2.files) := by
  constructor
  · rintro ⟨content, hmem⟩
    have hany : fs.files.any (fun p => p.1 == name) = true := by
      rw [List.any_eq_true]
      exact ⟨(name, content), hmem, by simp⟩
    simp [OutputWriter.new, openCreateNew, hany]
  · intro e he
    by_cases hany : fs.files.any (fun p => p.1 == name) = true
    · have hoc : openCreateNew fs name = Except.error IoErr.alreadyExists := by
        unfold openCreateNew; rw [if_pos hany]
      simp [OutputWriter.new, hoc, he]
    · have hany2 : fs.files.any (fun p => p.1 == name) = false := by
        rw [← Bool.not_eq_true]; exact hany
      have hoc : openCreateNew fs name = Except.ok ⟨(name, []) :: fs.files⟩ := by
        unfold openCreateNew; rw [if_neg (by simp [hany2])]
      simp [OutputWriter.new, hoc, he]

/-- Witness for C7 on a one-file file system. -/
theorem c7_exclusive_creation_witness :
    OutputWriter.new ⟨[("out.txt", [1, 2, 3])]⟩ true (some "out.txt") false =
      (Except.error IoErr.alreadyExists, (⟨[("out.txt", [1, 2, 3])]⟩ : FileSys)) :=
  (c7_exclusive_creation ⟨[("out.txt", [1, 2, 3])]⟩ "out.txt" true false).1
    ⟨[1, 2, 3], by simp⟩

/-- C8: with no output path, an interactive destination and
`deny_tty = true`, `OutputWriter::new` fails immediately with the
refusing-to-write-to-a-terminal error ("not printing to stdout"), with no
writable stream returned and the file system untouched. -/
theorem c8_deny_tty (fs : FileSys) :
    OutputWriter.new fs true none true =
      (Except.error (IoErr.otherErr "not printing to stdout"), fs) := by
  simp [OutputWriter.new]

lemma payloadFlatten_append (a b : List OutEvent) :
    payloadFlatten (a ++ b) = payloadFlatten a ++ payloadFlatten b := by
  induction a with
  | nil => rfl
  | cons e rest ih => cases e <;> simp [payloadFlatten, ih]

/-- C9 (implicit): the truncation cut is purely byte-based: a trace of
valid-UTF-8 writes (1599 ASCII bytes, then the 2-byte character `é`
straddling the limit) delivers a payload byte stream to the terminal that
is not itself well-formed UTF-8. -/
theorem c9_boundary_cut_not_utf8 :
    (∀ d ∈ [List.replicate 1599 97, [195, 169]], validUtf8 d = true) ∧
    validUtf8 (payloadFlatten (runWrites (StdoutWriter.new true)
      [List.replicate 1599 97, [195, 169]]).2) = false := by
  have hv1 : validUtf8 (List.replicate 1599 97) = true :=
    validUtf8_replicate 1599 97 (by omega)
  have hv2 : validUtf8 [195, 169] = true := by decide
  refine ⟨?_, ?_⟩
  · intro d hd
    rcases List.mem_cons.mp hd with h | h
    · subst h; exact hv1
    rcases List.mem_cons.mp h with h2 | h2
    · subst h2; exact hv2
    exact absurd h2 (List.not_mem_nil d)
  have hfit : (StdoutWriter.new true).count +
      (List.replicate 1599 (97 : Nat)).length ≤ SHORT_OUTPUT_LENGTH := by
    rw [List.length_replicate]; decide
  have hlt : (StdoutWriter.new true).count < SHORT_OUTPUT_LENGTH := by decide
  rw [runWrites_cons,
    write_fit_fst (StdoutWriter.new true) (List.replicate 1599 97) rfl hv1 rfl hlt hfit,
    write_fit_out (StdoutWriter.new true) (List.replicate 1599 97) rfl hv1 rfl hlt hfit]
  have h1count : ({ StdoutWriter.new true with
      count := (StdoutWriter.new true).count +
        (List.replicate (1599 : Nat) (97 : Nat)).length } : StdoutWriter).count = 1599 := by
    show (StdoutWriter.new true).count + (List.replicate (1599 : Nat) (97 : Nat)).length = 1599
    rw [List.length_replicate]
    decide
  have hlt2 : ({ StdoutWriter.new true with
      count := (StdoutWriter.new true).count +
        (List.replicate (1599 : Nat) (97 : Nat)).length } : StdoutWriter).count <
      SHORT_OUTPUT_LENGTH := by
    rw [h1count]; decide
  have hcross : SHORT_OUTPUT_LENGTH < ({ StdoutWriter.new true with
      count := (StdoutWriter.new true).count +
        (List.replicate (1599 : Nat) (97 : Nat)).length } : StdoutWriter).count +
      ([195, 169] : List Nat).length := by
    rw [h1count]; decide
  rw [runWrites_cons,
    write_cross_fst _ [195, 169] rfl hv2 rfl hlt2 hcross,
    write_cross_out _ [195, 169] rfl hv2 rfl hlt2 hcross,
    runWrites_nil]
  have htake : List.take (SHORT_OUTPUT_LENGTH - ({ StdoutWriter.new true with
      count := (StdoutWriter.new true).count +
        (List.replicate (1599 : Nat) (97 : Nat)).length } : StdoutWriter).count)
      ([195, 169] : List Nat) = [195] := by
    rw [h1count]; decide
  rw [payloadFlatten_append, htake]
  simp only [payloadFlatten, List.append_nil]
  unfold validUtf8
  rw [validUtf8From_ascii_append 1599 97 (by omega) [195]]
  decide

/-- C10 (implicit): an empty write on an interactive writer whose count
has exactly reached the limit with `truncated` still false emits the
trailer and transitions to `Truncated` even though no payload byte is
discarded by that call; an empty write with `count < LIMIT` delivers
nothing, emits no trailer, and leaves the writer unchanged. -/
theorem c10_empty_write (w : StdoutWriter) (htty : w.is_tty = true) :
    (w.count = SHORT_OUTPUT_LENGTH → w.truncated = false →
      w.write [] = ({ w with truncated := true }, [OutEvent.trailer], Except.ok 0)) ∧
    (w.count < SHORT_OUTPUT_LENGTH →
      (w.write []).1 = w ∧ flattenOut (w.write []).2.1 = [] ∧
      trailerCount (w.write []).2.1 = 0 ∧ (w.write []).2.2 = Except.ok 0) := by
  constructor
  · intro hlim ht
    exact write_at_limit w [] htty rfl ht hlim
  · intro hlt
    by_cases htr : w.truncated = true
    · rw [write_already_trunc w [] htty rfl htr]
      exact ⟨rfl, rfl, rfl, rfl⟩
    · have htr' : w.truncated = false := by simpa using htr
      have hfit : w.count + ([] : List Nat).length ≤ SHORT_OUTPUT_LENGTH := by
        simp; omega
      rw [write_fit w [] htty rfl htr' hlt hfit]
      exact ⟨rfl, rfl, rfl, rfl⟩

/-- Witness for C10 at the concrete just-at-limit state. -/
theorem c10_empty_write_witness :
    (StdoutWriter.mk SHORT_OUTPUT_LENGTH true false).write [] =
      ({ StdoutWriter.mk SHORT_OUTPUT_LENGTH true false with truncated := true },
       [OutEvent.trailer], Except.ok 0) :=
  (c10_empty_write (StdoutWriter.mk SHORT_OUTPUT_LENGTH true false) rfl).1 rfl rfl
